import Mathlib

/-!
# UpTimer: monitoring engine, history store and configuration validation

A shallow embedding of `src/config.go`, `src/main.go` (`validateConfig`),
`src/monitor.go`, and the entry points of `src/alerts.go` and `src/metrics.go`.

Conventions of the embedding:

* Go `int`, `time.Duration` and `time.Time` are `Int` (no arithmetic on them can
  overflow in the modelled code: they are only compared, stored and printed).
* A Go `map[K]V` is an association list `GoMap K V`, read with `GoMap.get` and
  written with `GoMap.set`; a missing key reads as `none`.
* The network, the clock and the prometheus/SMTP libraries are outside the
  program.  What the network answers to one probe is a `ProbeEvent`; the
  collaborators keep the list of the calls they received.
* The pointers that `NewMonitor` and `NewAlerter` are given for the collaborators
  may be nil: they are `Option`s, `none` being the nil pointer.  A function that
  can dereference one of them returns an `Option`, and `none` is the run-time
  panic that ends the program.  The configuration pointer of the monitor is read
  by every method, `checkWebsite` included, so a monitor always has one.
* The goroutines of one round only touch shared state inside `storeResult`
  (under the mutex) and inside the collaborators, so a round is modelled as the
  sequence of its per-target dispatches in completion order.
-/

namespace UpTimer

/-! ## Definitions -/

/-! ### Go maps -/

/-- A Go map as an association list; the first pair with a key is its entry. -/
abbrev GoMap (κ : Type) (β : Type) := List (κ × β)

/-- Lookup of `m[k]`, `none` when the key is missing. -/
def GoMap.get {κ β : Type} [DecidableEq κ] : GoMap κ β → κ → Option β
  | [], _ => none
  | (k', v') :: t, k => if k' = k then some v' else GoMap.get t k

/-- Assignment `m[k] = v`: overwrite the entry of `k`, or add one. -/
def GoMap.set {κ β : Type} [DecidableEq κ] : GoMap κ β → κ → β → GoMap κ β
  | [], k, v => [(k, v)]
  | (k', v') :: t, k, v => if k' = k then (k, v) :: t else (k', v') :: GoMap.set t k v

/-- Keys of a map, in storage order. -/
def GoMap.keys {κ β : Type} (m : GoMap κ β) : List κ := m.map Prod.fst

/-! ### Data model (`src/config.go`) -/

/-- Go `type Website struct`. -/
structure Website where
  Name : String
  URL : String
  Method : String
  ExpectedStatus : Int
  deriving DecidableEq, Repr

/-- Go `Config.Server`. -/
structure ServerConfig where
  Port : Int
  Host : String
  deriving DecidableEq, Repr

/-- Go `Config.Monitoring`; durations in nanoseconds. -/
structure MonitoringConfig where
  Interval : Int
  Timeout : Int
  deriving DecidableEq, Repr

/-- Go `Config.Alerts.Email`. -/
structure EmailConfig where
  Enabled : Bool
  SMTPServer : String
  SMTPPort : Int
  Username : String
  Password : String
  From : String
  To : List String
  deriving DecidableEq, Repr

/-- Go `Config.Alerts.Slack`. -/
structure SlackConfig where
  Enabled : Bool
  WebhookURL : String
  Channel : String
  deriving DecidableEq, Repr

/-- Go `Config.Alerts`. -/
structure AlertsConfig where
  Email : EmailConfig
  Slack : SlackConfig
  deriving DecidableEq, Repr

/-- Go `Config.Metrics`. -/
structure MetricsConfig where
  Enabled : Bool
  Path : String
  deriving DecidableEq, Repr

/-- Go `type Config struct`. -/
structure Config where
  Server : ServerConfig
  Monitoring : MonitoringConfig
  Websites : List Website
  Alerts : AlertsConfig
  Metrics : MetricsConfig
  deriving DecidableEq, Repr

/-- Go `type MonitorResult struct`. -/
structure MonitorResult where
  Website : Website
  Success : Bool
  ResponseTime : Int
  StatusCode : Int
  Error : String
  Timestamp : Int
  deriving DecidableEq, Repr

/-- Rendering of `%d` by `fmt.Sprintf` for a Go `int`. -/
def fmtInt (n : Int) : String :=
  match n with
  | Int.ofNat k => String.mk (Nat.toDigits 10 k)
  | Int.negSucc k => "-" ++ String.mk (Nat.toDigits 10 (k + 1))

/-! ### Configuration validation (`src/main.go`) -/

/-- The website loop of `validateConfig`, from index `i` on: the list as the loop
leaves it and the error it returns, if any.  A website that passes both checks
gets its defaults written back into the slice before the next one is visited;
the loop tests the copy `website` taken by `range`, which the write-back does
not change. -/
def validateWebsites (i : Nat) : List Website → List Website × Option String
  | [] => ([], none)
  | website :: rest =>
    if website.Name = "" then
      (website :: rest, some ("website " ++ fmtInt i ++ ": name is required"))
    else if website.URL = "" then
      (website :: rest, some ("website " ++ fmtInt i ++ ": URL is required"))
    else
      let w1 := if website.Method = "" then { website with Method := "GET" } else website
      let w2 := if website.ExpectedStatus = 0 then { w1 with ExpectedStatus := 200 } else w1
      let out := validateWebsites (i + 1) rest
      (w2 :: out.1, out.2)

/-- Go `validateConfig(config *Config) error`: the configuration as the call
leaves it, and the returned error (`none` is `nil`). -/
def validateConfig (config : Config) : Config × Option String :=
  if config.Server.Port ≤ 0 ∨ config.Server.Port > 65535 then
    (config, some ("invalid server port: " ++ fmtInt config.Server.Port))
  else if config.Monitoring.Interval ≤ 0 then
    (config, some "monitoring interval must be positive")
  else if config.Monitoring.Timeout ≤ 0 then
    (config, some "monitoring timeout must be positive")
  else if config.Websites.length = 0 then
    (config, some "at least one website must be configured")
  else
    let out := validateWebsites 0 config.Websites
    ({ config with Websites := out.1 }, out.2)

/-! ### Collaborators (`src/alerts.go`, `src/metrics.go`) -/

/-- Go `type Alerter struct`, with the calls it received: `calls` holds the
argument of every `SendAlert` that ran, `emailJobs` and `slackJobs` the arguments
of the `sendEmailAlert` and `sendSlackAlert` goroutines it launched.  The field
`config` is the pointer given to `NewAlerter`, `none` when it was nil. -/
structure Alerter where
  config : Option Config
  calls : List MonitorResult
  emailJobs : List MonitorResult
  slackJobs : List MonitorResult
  deriving DecidableEq, Repr

/-- Go `NewAlerter`. -/
def NewAlerter (config : Option Config) : Alerter :=
  { config := config, calls := [], emailJobs := [], slackJobs := [] }

/-- Go `(*Alerter).SendAlert` on a non-nil receiver.  Its first statement reads
`a.config.Alerts.Email.Enabled`: with a nil `config` it panics (`none`). -/
def Alerter.SendAlert (a : Alerter) (result : MonitorResult) : Option Alerter :=
  match a.config with
  | none => none
  | some config =>
    let a1 := { a with calls := a.calls ++ [result] }
    let a2 := if config.Alerts.Email.Enabled then
        { a1 with emailJobs := a1.emailJobs ++ [result] } else a1
    some (if config.Alerts.Slack.Enabled then
      { a2 with slackJobs := a2.slackJobs ++ [result] } else a2)

/-- Label set of the prometheus vectors: `website_name`, `website_url`. -/
abbrev Labels := String × String

/-- Go `type Metrics struct`: the four prometheus vectors as maps from labels to
the current value, and `calls`, the argument of every `UpdateMetrics`.  The
response-time gauge keeps the duration in nanoseconds where the source converts
it to seconds. -/
structure Metrics where
  uptimeGauge : GoMap Labels Int
  responseTimeGauge : GoMap Labels Int
  checksTotal : GoMap Labels Nat
  checksErrors : GoMap Labels Nat
  calls : List MonitorResult
  deriving DecidableEq, Repr

/-- Go `NewMetrics`. -/
def NewMetrics : Metrics :=
  { uptimeGauge := [], responseTimeGauge := [], checksTotal := [], checksErrors := [],
    calls := [] }

/-- Increment of a counter of a prometheus `CounterVec`. -/
def counterInc (c : GoMap Labels Nat) (labels : Labels) : GoMap Labels Nat :=
  c.set labels ((c.get labels).getD 0 + 1)

/-- Go `(*Metrics).UpdateMetrics`. -/
def Metrics.UpdateMetrics (m : Metrics) (result : MonitorResult) : Metrics :=
  let labels : Labels := (result.Website.Name, result.Website.URL)
  let m1 := { m with calls := m.calls ++ [result] }
  let m2 := if result.Success then
      { m1 with uptimeGauge := m1.uptimeGauge.set labels 1 }
    else
      { m1 with uptimeGauge := m1.uptimeGauge.set labels 0,
                checksErrors := counterInc m1.checksErrors labels }
  let m3 := { m2 with responseTimeGauge := m2.responseTimeGauge.set labels result.ResponseTime }
  { m3 with checksTotal := counterInc m3.checksTotal labels }

/-! ### The monitor (`src/monitor.go`) -/

/-- Go `type Monitor struct` (the mutex has no state of its own here).  The
fields `alerter` and `metrics` are the pointers given to `NewMonitor`, `none`
when nil: `updateMetrics` tests the metrics pointer against nil, `handleAlerts`
calls through the alerter pointer without a test. -/
structure Monitor where
  config : Config
  results : GoMap String (List MonitorResult)
  alerter : Option Alerter
  metrics : Option Metrics
  deriving DecidableEq, Repr

/-- Go `NewMonitor`. -/
def NewMonitor (config : Config) (alerter : Option Alerter) (metrics : Option Metrics) :
    Monitor :=
  { config := config, results := [], alerter := alerter, metrics := metrics }

/-- What the outside world answers to one probe. -/
inductive ProbeEvent where
  /-- `http.NewRequest` returned the error with this text. -/
  | requestError (err : String)
  /-- `client.Do` returned the error with this text, `elapsed` after the start. -/
  | transportError (err : String) (elapsed : Int)
  /-- `client.Do` returned a response with this status code, `elapsed` after the start. -/
  | response (statusCode : Int) (elapsed : Int)
  deriving DecidableEq, Repr

/-- Environment of one `checkWebsite` call: the value of `time.Now()` at its
start and the answer of the network. -/
structure Probe where
  start : Int
  event : ProbeEvent
  deriving DecidableEq, Repr

/-- Go `(*Monitor).checkWebsite`.  The fields the source leaves untouched keep
their zero values. -/
def checkWebsite (website : Website) (env : Probe) : MonitorResult :=
  let result : MonitorResult :=
    { Website := website, Success := false, ResponseTime := 0, StatusCode := 0,
      Error := "", Timestamp := env.start }
  match env.event with
  | ProbeEvent.requestError err =>
    { result with Error := "Failed to create request: " ++ err, Success := false }
  | ProbeEvent.transportError err elapsed =>
    { result with Error := "Request failed: " ++ err, Success := false,
                  ResponseTime := elapsed }
  | ProbeEvent.response statusCode elapsed =>
    let result := { result with ResponseTime := elapsed, StatusCode := statusCode }
    if statusCode = website.ExpectedStatus then
      { result with Success := true }
    else
      { result with
        Success := false,
        Error := "Unexpected status code: " ++ fmtInt statusCode ++ " (expected: "
          ++ fmtInt website.ExpectedStatus ++ ")" }

/-- Go `(*Monitor).storeResult`. -/
def storeResult (m : Monitor) (result : MonitorResult) : Monitor :=
  let websiteName := result.Website.Name
  let results := (m.results.get websiteName).getD []
  let results := if results.length ≥ 100 then results.drop 1 else results
  let results := results ++ [result]
  { m with results := m.results.set websiteName results }

/-- Go `(*Monitor).handleAlerts`.  For a failed outcome it calls
`m.alerter.SendAlert(result)`; on a nil alerter the body of `SendAlert` reads
`a.config` through the nil receiver and panics (`none`). -/
def handleAlerts (m : Monitor) (result : MonitorResult) : Option Monitor :=
  if !result.Success then
    match m.alerter with
    | none => none
    | some a =>
      match a.SendAlert result with
      | none => none
      | some a2 => some { m with alerter := some a2 }
  else some m

/-- Go `(*Monitor).updateMetrics`. -/
def updateMetrics (m : Monitor) (result : MonitorResult) : Monitor :=
  match m.metrics with
  | some metrics => { m with metrics := some (metrics.UpdateMetrics result) }
  | none => m

/-- Body of the goroutine that `checkAllWebsites` starts for one website; a
panic in `handleAlerts` ends it before `updateMetrics`. -/
def checkOne (m : Monitor) (site : Website) (env : Probe) : Option Monitor :=
  let result := checkWebsite site env
  match handleAlerts (storeResult m result) result with
  | none => none
  | some m2 => some (updateMetrics m2 result)

/-- Go `(*Monitor).checkAllWebsites`, given the goroutines of the round in the
order in which they complete, each with the environment of its probe.  A panic
in one goroutine ends the program (`none`). -/
def checkAllWebsites : Monitor → List (Website × Probe) → Option Monitor
  | m, [] => some m
  | m, p :: rest =>
    match checkOne m p.1 p.2 with
    | none => none
    | some m2 => checkAllWebsites m2 rest

/-- The list `completed` is a schedule of one round of `m`: one goroutine per
configured website, in some completion order. -/
def IsRound (m : Monitor) (completed : List (Website × Probe)) : Prop :=
  (completed.map Prod.fst).Perm m.config.Websites

/-- A run of the scheduler: the rounds one after the other, as long as none
panics. -/
def runRounds : Monitor → List (List (Website × Probe)) → Option Monitor
  | m, [] => some m
  | m, rd :: rest =>
    match checkAllWebsites m rd with
    | none => none
    | some m2 => runRounds m2 rest

/-- Go `(*Monitor).GetResults`: a fresh map with a copy of every history. -/
def GetResults (m : Monitor) : GoMap String (List MonitorResult) :=
  m.results.foldl (fun results entry => results.set entry.1 (entry.2.take entry.2.length)) []

/-- Go `(*Monitor).GetLatestResults`. -/
def GetLatestResults (m : Monitor) : GoMap String MonitorResult :=
  m.results.foldl
    (fun latest entry =>
      if h : entry.2.length > 0 then
        latest.set entry.1 (entry.2.get ⟨entry.2.length - 1, Nat.sub_lt h Nat.one_pos⟩)
      else latest)
    []

/-! ### Specification-side and auxiliary definitions -/

/-- The words of the specification for `append`: after appending, drop the
oldest entry while the length exceeds the cap. -/
def dropOldestUntil {α : Type} (cap : Nat) : List α → List α
  | [] => []
  | x :: t => if (x :: t).length > cap then dropOldestUntil cap t else x :: t

/-- The specification's `append(targetName, outcome)` on one history. -/
def specAppend (cap : Nat) (h : List MonitorResult) (outcome : MonitorResult) :
    List MonitorResult :=
  dropOldestUntil cap (h ++ [outcome])

/-- The history of target name `T`: Go's `m.results[T]`, empty when missing. -/
def history (m : Monitor) (T : String) : List MonitorResult :=
  (m.results.get T).getD []

/-- The history that `storeResult` writes for a history `h` and an outcome. -/
def pushCapped (h : List MonitorResult) (result : MonitorResult) : List MonitorResult :=
  (if h.length ≥ 100 then h.drop 1 else h) ++ [result]

/-- Number of outcomes of `rs` recorded under target name `T`. -/
def callsFor (T : String) (rs : List MonitorResult) : Nat :=
  rs.countP (fun r => decide (r.Website.Name = T))

/-! ### Sample data on which the model is evaluated -/

/-- A website expecting status 200. -/
def siteA : Website := { Name := "a", URL := "http://a/", Method := "GET", ExpectedStatus := 200 }

/-- A valid configuration around the given website list. -/
def sampleConfig (sites : List Website) : Config :=
  { Server := { Port := 8080, Host := "localhost" },
    Monitoring := { Interval := 30000000000, Timeout := 5000000000 },
    Websites := sites,
    Alerts := { Email := { Enabled := false, SMTPServer := "", SMTPPort := 0, Username := "",
                           Password := "", From := "", To := [] },
                Slack := { Enabled := false, WebhookURL := "", Channel := "" } },
    Metrics := { Enabled := true, Path := "/metrics" } }

/-- A successful outcome for `siteA` started at time `t`. -/
def okA (t : Int) : MonitorResult :=
  checkWebsite siteA { start := t, event := ProbeEvent.response 200 5 }

/-- A monitor whose history for `"a"` is full: outcomes started at times 0..99. -/
def fullMonitor : Monitor :=
  { NewMonitor (sampleConfig [siteA]) (some (NewAlerter (some (sampleConfig [siteA]))))
      (some NewMetrics) with
    results := [("a", (List.range 100).map (fun i => okA (Int.ofNat i)))] }

/-- Conditional assignment `out[k] = x` when the option holds an `x`. -/
def GoMap.setOpt {κ γ : Type} [DecidableEq κ] (out : GoMap κ γ) (k : κ) :
    Option γ → GoMap κ γ
  | some x => out.set k x
  | none => out

/-- The scenario target of the specification. -/
def siteSvc : Website :=
  { Name := "svc", URL := "http://x/", Method := "GET", ExpectedStatus := 200 }

/-- The defaults that the loop of `validateConfig` writes back for one website. -/
def withDefaults (website : Website) : Website :=
  let w1 := if website.Method = "" then { website with Method := "GET" } else website
  if website.ExpectedStatus = 0 then { w1 with ExpectedStatus := 200 } else w1

/-- A configuration with one website that relies on both defaults. -/
def defaultsConfig : Config :=
  sampleConfig [{ Name := "b", URL := "http://b/", Method := "", ExpectedStatus := 0 }, siteA]

/-- The `SendAlert` calls that the monitor's alerter ran; a nil alerter ran
none. -/
def alertCalls (m : Monitor) : List MonitorResult :=
  match m.alerter with
  | some a => a.calls
  | none => []

/-- The alerter pointer is not nil and the alerter holds a configuration. -/
def canAlert (m : Monitor) : Bool :=
  match m.alerter with
  | some a => a.config.isSome
  | none => false

/-- The `UpdateMetrics` calls received by the monitor's metrics collaborator;
a nil collaborator received none. -/
def metricsCalls (m : Monitor) : List MonitorResult :=
  match m.metrics with
  | some metrics => metrics.calls
  | none => []

/-- The outcomes of a round, in completion order. -/
def outcomes (completed : List (Website × Probe)) : List MonitorResult :=
  completed.map (fun p => checkWebsite p.1 p.2)

/-- Number of configured websites of `config` that carry the name `T`. -/
def sitesNamed (config : Config) (T : String) : Nat :=
  config.Websites.countP (fun w => decide (w.Name = T))

/-- Being a schedule of a round is decidable. -/
instance (m : Monitor) (completed : List (Website × Probe)) : Decidable (IsRound m completed) := by
  unfold IsRound
  infer_instance

/-- A second website with the name of `siteA`. -/
def siteA2 : Website :=
  { Name := "a", URL := "http://a.example/", Method := "GET", ExpectedStatus := 200 }

/-- A configuration in which two websites share the name "a". -/
def dupConfig : Config := sampleConfig [siteA, siteA2]

/-- A fresh monitor on the validated `dupConfig`. -/
def dupMonitor : Monitor :=
  NewMonitor (validateConfig dupConfig).1
    (some (NewAlerter (some (validateConfig dupConfig).1))) (some NewMetrics)

/-- One round of `dupMonitor`: both probes answer 200. -/
def dupRound : List (Website × Probe) :=
  [(siteA, { start := 0, event := ProbeEvent.response 200 5 }),
   (siteA2, { start := 0, event := ProbeEvent.response 200 7 })]

/-- A configuration with two websites of different names. -/
def twoConfig : Config := sampleConfig [siteA, siteSvc]

/-- Two rounds over `twoConfig`, completing in opposite orders. -/
def twoRounds : List (List (Website × Probe)) :=
  [[(siteA, { start := 0, event := ProbeEvent.response 200 5 }),
    (siteSvc, { start := 0, event := ProbeEvent.response 503 7 })],
   [(siteSvc, { start := 30, event := ProbeEvent.transportError "timeout" 5 }),
    (siteA, { start := 30, event := ProbeEvent.response 200 6 })]]

/-- A third website. -/
def siteC : Website :=
  { Name := "c", URL := "http://c/", Method := "HEAD", ExpectedStatus := 204 }

/-- Three configured targets. -/
def threeConfig : Config := sampleConfig [siteA, siteSvc, siteC]

/-- A round over `threeConfig` in which only `siteSvc` fails. -/
def threeRound : List (Website × Probe) :=
  [(siteC, { start := 0, event := ProbeEvent.response 204 3 }),
   (siteA, { start := 0, event := ProbeEvent.response 200 5 }),
   (siteSvc, { start := 0, event := ProbeEvent.response 503 7 })]

/-- A monitor on `threeConfig` built with a nil metrics pointer. -/
def nilMetricsMonitor : Monitor :=
  NewMonitor threeConfig (some (NewAlerter (some threeConfig))) none

/-- A monitor on `threeConfig` built with a nil alerter pointer. -/
def nilAlerterMonitor : Monitor := NewMonitor threeConfig none (some NewMetrics)

/-- A monitor on `threeConfig` whose alerter was built on a nil configuration. -/
def bareAlerterMonitor : Monitor :=
  NewMonitor threeConfig (some (NewAlerter none)) (some NewMetrics)

/-- A monitor on `threeConfig` built as in `main`. -/
def threeMonitor : Monitor :=
  NewMonitor threeConfig (some (NewAlerter (some threeConfig))) (some NewMetrics)

/-! ## Theorems -/

theorem GoMap.get_set_self {κ β : Type} [DecidableEq κ] (m : GoMap κ β) (k : κ) (v : β) :
    (m.set k v).get k = some v := by
  induction m with
  | nil => simp [GoMap.set, GoMap.get]
  | cons p t ih =>
    obtain ⟨k', v'⟩ := p
    by_cases hk : k' = k
    · simp [GoMap.set, GoMap.get, hk]
    · simp [GoMap.set, GoMap.get, hk, ih]

theorem GoMap.get_set_ne {κ β : Type} [DecidableEq κ] (m : GoMap κ β) (k k2 : κ) (v : β)
    (hne : k2 ≠ k) : (m.set k v).get k2 = m.get k2 := by
  induction m with
  | nil =>
    have hne2 : ¬ k = k2 := fun h => hne h.symm
    simp [GoMap.set, GoMap.get, hne2]
  | cons p t ih =>
    obtain ⟨k', v'⟩ := p
    by_cases hk : k' = k
    · subst hk
      have hne2 : ¬ k' = k2 := fun h => hne h.symm
      simp [GoMap.set, GoMap.get, hne2]
    · by_cases hk2 : k' = k2
      · subst hk2
        simp [GoMap.set, GoMap.get, hk]
      · simp [GoMap.set, GoMap.get, hk, hk2, ih]

theorem storeResult_get_self (m : Monitor) (r : MonitorResult) :
    (storeResult m r).results.get r.Website.Name
      = some (pushCapped (history m r.Website.Name) r) := by
  simp [storeResult, pushCapped, history, GoMap.get_set_self]

theorem storeResult_get_ne (m : Monitor) (r : MonitorResult) (T : String)
    (hne : T ≠ r.Website.Name) :
    (storeResult m r).results.get T = m.results.get T := by
  simp [storeResult, GoMap.get_set_ne _ _ _ _ hne]

theorem pushCapped_length (h : List MonitorResult) (r : MonitorResult)
    (hle : h.length ≤ 100) : (pushCapped h r).length = min (h.length + 1) 100 := by
  unfold pushCapped
  by_cases hc : h.length ≥ 100
  · simp [hc]; omega
  · simp [hc]; omega

theorem foldl_storeResult_get (rs : List MonitorResult) (m : Monitor) (T : String)
    (hle : (history m T).length ≤ 100) :
    (history (rs.foldl storeResult m) T).length = min ((history m T).length + callsFor T rs) 100
    ∧ ((rs.foldl storeResult m).results.get T = none ↔
        (m.results.get T = none ∧ callsFor T rs = 0)) := by
  induction rs generalizing m with
  | nil => simp [callsFor]; omega
  | cons r rs ih =>
    simp only [List.foldl_cons]
    by_cases hT : r.Website.Name = T
    · subst hT
      have hget := storeResult_get_self m r
      have hhist : history (storeResult m r) r.Website.Name
          = pushCapped (history m r.Website.Name) r := by
        simp [history, hget]
      have hlen := pushCapped_length (history m r.Website.Name) r hle
      have hle2 : (history (storeResult m r) r.Website.Name).length ≤ 100 := by
        rw [hhist, hlen]; omega
      obtain ⟨h1, h2⟩ := ih (storeResult m r) hle2
      have hc : callsFor r.Website.Name (r :: rs) = callsFor r.Website.Name rs + 1 := by
        simp [callsFor, List.countP_cons]
      refine ⟨?_, ?_⟩
      · rw [h1, hhist, hlen, hc]; omega
      · rw [h2, hget, hc]; simp
    · have hne : T ≠ r.Website.Name := fun h => hT h.symm
      have hget := storeResult_get_ne m r T hne
      have hhist : history (storeResult m r) T = history m T := by
        simp [history, hget]
      obtain ⟨h1, h2⟩ := ih (storeResult m r) (by rw [hhist]; exact hle)
      have hc : callsFor T (r :: rs) = callsFor T rs := by
        simp [callsFor, List.countP_cons, hT]
      refine ⟨?_, ?_⟩
      · rw [h1, hhist, hc]
      · rw [h2, hget, hc]

theorem dropOldestUntil_eq_drop {α : Type} (cap : Nat) (l : List α) :
    dropOldestUntil cap l = l.drop (l.length - cap) := by
  induction l with
  | nil => simp [dropOldestUntil]
  | cons x t ih =>
    by_cases hc : (x :: t).length > cap
    · have hlen : (x :: t).length - cap = (t.length - cap) + 1 := by
        simp only [List.length_cons] at hc ⊢
        omega
      rw [dropOldestUntil, if_pos hc, ih, hlen, List.drop_succ_cons]
    · have hlen : (x :: t).length - cap = 0 := by omega
      rw [dropOldestUntil, if_neg hc, hlen, List.drop_zero]

theorem pushCapped_eq_drop (h : List MonitorResult) (r : MonitorResult)
    (hle : h.length ≤ 100) :
    pushCapped h r = (h ++ [r]).drop ((h ++ [r]).length - min (h.length + 1) 100) := by
  unfold pushCapped
  by_cases hc : h.length ≥ 100
  · have h100 : h.length = 100 := by omega
    have hk : (h ++ [r]).length - min (h.length + 1) 100 = 1 := by
      simp [h100]
    rw [if_pos hc, hk, List.drop_append_of_le_length (by omega)]
  · have hk : (h ++ [r]).length - min (h.length + 1) 100 = 0 := by
      simp only [List.length_append, List.length_singleton]
      omega
    rw [if_neg hc, hk, List.drop_zero]

theorem pushCapped_eq_specAppend (h : List MonitorResult) (r : MonitorResult)
    (hle : h.length ≤ 100) : pushCapped h r = specAppend 100 h r := by
  rw [specAppend, dropOldestUntil_eq_drop, pushCapped_eq_drop h r hle]
  congr 1
  simp only [List.length_append, List.length_singleton]
  omega

theorem foldl_storeResult_new (config : Config) (alerter : Option Alerter) (metrics : Option Metrics)
    (rs : List MonitorResult) (T : String) :
    ((rs.foldl storeResult (NewMonitor config alerter metrics)).results.get T).map List.length
        = (if callsFor T rs = 0 then none else some (min (callsFor T rs) 100))
    ∧ (∀ h, (rs.foldl storeResult (NewMonitor config alerter metrics)).results.get T = some h →
        h.length ≤ 100) := by
  have h0 : (history (NewMonitor config alerter metrics) T).length ≤ 100 := by
    simp [history, NewMonitor, GoMap.get]
  obtain ⟨h1, h2⟩ := foldl_storeResult_get rs (NewMonitor config alerter metrics) T h0
  have hnone : (NewMonitor config alerter metrics).results.get T = none := by
    simp [NewMonitor, GoMap.get]
  have hlen0 : (history (NewMonitor config alerter metrics) T).length = 0 := by
    simp [history, hnone]
  rw [hlen0, Nat.zero_add] at h1
  cases hg : (rs.foldl storeResult (NewMonitor config alerter metrics)).results.get T with
  | none =>
    have hc := (h2.mp hg).2
    simp [hc]
  | some h =>
    have hc : callsFor T rs ≠ 0 := fun hc0 => by
      have := h2.mpr ⟨hnone, hc0⟩
      rw [hg] at this
      cases this
    have hl : h.length = min (callsFor T rs) 100 := by
      simpa [history, hg] using h1
    refine ⟨by simp [hc, hl], ?_⟩
    intro h' hh'
    cases hh'
    omega

/-- C1: from the empty store of `NewMonitor`, after any sequence `rs` of
`storeResult` calls, the history of every target name `T` has length
`min c 100` where `c` counts the calls made for `T`; a name with `c = 0` has no
entry, and no stored history is longer than 100. -/
theorem history_cap_invariant (config : Config) (alerter : Option Alerter) (metrics : Option Metrics)
    (rs : List MonitorResult) (T : String) :
    ((rs.foldl storeResult (NewMonitor config alerter metrics)).results.get T).map List.length
        = (if callsFor T rs = 0 then none else some (min (callsFor T rs) 100))
    ∧ (∀ h, (rs.foldl storeResult (NewMonitor config alerter metrics)).results.get T = some h →
        h.length ≤ 100) :=
  foldl_storeResult_new config alerter metrics rs T

/-- C2: when the history `h` of the outcome's target name has length at most
100, `storeResult` leaves under that name the last `min (len h + 1) 100`
elements of `h ++ [outcome]`, which is the specification's "append, then drop
the oldest until the length is the cap", and leaves every other name's history
as it was. -/
theorem storeResult_fifo (m : Monitor) (outcome : MonitorResult)
    (hle : (history m outcome.Website.Name).length ≤ 100) :
    (storeResult m outcome).results.get outcome.Website.Name
        = some ((history m outcome.Website.Name ++ [outcome]).drop
            ((history m outcome.Website.Name ++ [outcome]).length
              - min ((history m outcome.Website.Name).length + 1) 100))
    ∧ (storeResult m outcome).results.get outcome.Website.Name
        = some (specAppend 100 (history m outcome.Website.Name) outcome)
    ∧ (∀ T, T ≠ outcome.Website.Name →
        (storeResult m outcome).results.get T = m.results.get T) := by
  refine ⟨?_, ?_, ?_⟩
  · rw [storeResult_get_self, pushCapped_eq_drop _ _ hle]
  · rw [storeResult_get_self, pushCapped_eq_specAppend _ _ hle]
  · intro T hT
    exact storeResult_get_ne m outcome T hT

/-- The FIFO append on a history that is already full. -/
theorem storeResult_fifo_witness :
    (history fullMonitor (okA 100).Website.Name).length ≤ 100
    ∧ (storeResult fullMonitor (okA 100)).results.get (okA 100).Website.Name
        = some (specAppend 100 (history fullMonitor (okA 100).Website.Name) (okA 100)) :=
  ⟨by decide, (storeResult_fifo fullMonitor (okA 100) (by decide)).2.1⟩

theorem GoMap.get_eq_none_of_not_mem {κ β : Type} [DecidableEq κ] (m : GoMap κ β) (k : κ)
    (hk : k ∉ m.keys) : m.get k = none := by
  induction m with
  | nil => simp [GoMap.get]
  | cons p t ih =>
    obtain ⟨k', v'⟩ := p
    simp only [GoMap.keys, List.map_cons, List.mem_cons, not_or] at hk
    have hne : ¬ k' = k := fun h => hk.1 h.symm
    simp only [GoMap.get, if_neg hne]
    exact ih hk.2

theorem GoMap.mem_keys_set {κ β : Type} [DecidableEq κ] (m : GoMap κ β) (k : κ) (v : β)
    (x : κ) : x ∈ (m.set k v).keys ↔ x = k ∨ x ∈ m.keys := by
  induction m with
  | nil => simp [GoMap.set, GoMap.keys]
  | cons p t ih =>
    obtain ⟨k', v'⟩ := p
    by_cases hk : k' = k
    · subst hk
      simp [GoMap.set, GoMap.keys]
    · simp only [GoMap.keys] at ih
      simp only [GoMap.set, if_neg hk, GoMap.keys, List.map_cons, List.mem_cons, ih]
      tauto

theorem GoMap.nodup_keys_set {κ β : Type} [DecidableEq κ] (m : GoMap κ β) (k : κ) (v : β)
    (hnd : m.keys.Nodup) : (m.set k v).keys.Nodup := by
  induction m with
  | nil => simp [GoMap.set, GoMap.keys]
  | cons p t ih =>
    obtain ⟨k', v'⟩ := p
    have hnd2 : k' ∉ GoMap.keys t ∧ (GoMap.keys t).Nodup := by
      simpa [GoMap.keys] using hnd
    by_cases hk : k' = k
    · subst hk
      simpa [GoMap.set, GoMap.keys] using hnd
    · have hmem : k' ∉ (GoMap.set t k v).keys := by
        rw [GoMap.mem_keys_set]
        intro h
        rcases h with h | h
        · exact hk h
        · exact hnd2.1 h
      have := ih hnd2.2
      simp only [GoMap.set, if_neg hk, GoMap.keys, List.map_cons, List.nodup_cons]
      exact ⟨hmem, this⟩

/-- Reading a map built by a `range` loop that assigns `out[k] = x` for the
entries `(k, v)` with `g v = some x`, over a map with distinct keys. -/
theorem GoMap.get_foldl_setOpt {β γ : Type} (g : β → Option γ) (l : GoMap String β)
    (acc : GoMap String γ) (T : String) (hnd : l.keys.Nodup) :
    (l.foldl (fun out e => out.setOpt e.1 (g e.2)) acc).get T
      = (((l.get T).bind g).map some).getD (acc.get T) := by
  induction l generalizing acc with
  | nil => simp [GoMap.get]
  | cons p t ih =>
    obtain ⟨k, v⟩ := p
    have hnd2 : k ∉ GoMap.keys t ∧ (GoMap.keys t).Nodup := by
      simpa [GoMap.keys] using hnd
    simp only [List.foldl_cons]
    rw [ih _ hnd2.2]
    by_cases hk : k = T
    · subst hk
      rw [GoMap.get_eq_none_of_not_mem t k hnd2.1]
      cases hg : g v with
      | none => simp [GoMap.get, hg, GoMap.setOpt]
      | some x => simp [GoMap.get, hg, GoMap.setOpt, GoMap.get_set_self]
    · have hne : T ≠ k := fun h => hk h.symm
      have hstep : (acc.setOpt k (g v)).get T = acc.get T := by
        cases hg : g v with
        | none => rfl
        | some x => exact GoMap.get_set_ne acc k T x hne
      simp only [GoMap.get, if_neg hk, hstep]

theorem nodup_keys_foldl_storeResult (rs : List MonitorResult) (m : Monitor)
    (hnd : m.results.keys.Nodup) : (rs.foldl storeResult m).results.keys.Nodup := by
  induction rs generalizing m with
  | nil => exact hnd
  | cons r rs ih =>
    simp only [List.foldl_cons]
    apply ih
    simp only [storeResult]
    exact GoMap.nodup_keys_set _ _ _ hnd

theorem GetResults_get (m : Monitor) (T : String) (hnd : m.results.keys.Nodup) :
    (GetResults m).get T = m.results.get T := by
  have h := GoMap.get_foldl_setOpt (fun v : List MonitorResult => some (v.take v.length))
    m.results [] T hnd
  have hfun : (fun (results : GoMap String (List MonitorResult))
        (entry : String × List MonitorResult) =>
        results.set entry.1 (entry.2.take entry.2.length))
      = (fun out e => out.setOpt e.1 (some (e.2.take e.2.length))) := by
    funext results entry
    rfl
  unfold GetResults
  rw [hfun, h]
  cases m.results.get T with
  | none => rfl
  | some v => simp

theorem GetLatestResults_get (m : Monitor) (T : String) (hnd : m.results.keys.Nodup) :
    (GetLatestResults m).get T = (m.results.get T).bind List.getLast? := by
  have hfun : (fun (latest : GoMap String MonitorResult)
        (entry : String × List MonitorResult) =>
        if h : entry.2.length > 0 then
          latest.set entry.1 (entry.2.get ⟨entry.2.length - 1, Nat.sub_lt h Nat.one_pos⟩)
        else latest)
      = (fun out e => out.setOpt e.1 (List.getLast? e.2)) := by
    funext latest entry
    by_cases h : entry.2.length > 0
    · have hne : entry.2 ≠ [] := List.ne_nil_of_length_pos h
      rw [dif_pos h, List.getLast?_eq_getLast _ hne, List.getLast_eq_getElem]
      rfl
    · have hnil : entry.2 = [] := by
        cases hl : entry.2 with
        | nil => rfl
        | cons a b => rw [hl] at h; simp at h
      rw [dif_neg h, hnil]
      rfl
  have h := GoMap.get_foldl_setOpt List.getLast? m.results [] T hnd
  unfold GetLatestResults
  rw [hfun, h]
  cases m.results.get T with
  | none => rfl
  | some v =>
    cases hv : v.getLast? with
    | none => simp [hv, GoMap.get]
    | some x => simp [hv]

/-- C3: in every store reached from the empty one by `storeResult` calls,
a target name with an entry in `GetResults()` has an entry in
`GetLatestResults()` equal to the last element of its history, and a name for
which nothing was stored is missing from both. -/
theorem latest_is_last_of_history (config : Config) (alerter : Option Alerter)
    (metrics : Option Metrics) (rs : List MonitorResult) (T : String) :
    (∀ h, (GetResults (rs.foldl storeResult (NewMonitor config alerter metrics))).get T = some h →
      ∃ r, (GetLatestResults (rs.foldl storeResult (NewMonitor config alerter metrics))).get T
            = some r ∧ h.getLast? = some r)
    ∧ (callsFor T rs = 0 →
        (GetLatestResults (rs.foldl storeResult (NewMonitor config alerter metrics))).get T = none
        ∧ (GetResults (rs.foldl storeResult (NewMonitor config alerter metrics))).get T = none) := by
  have hnd0 : (NewMonitor config alerter metrics).results.keys.Nodup := by
    simp [NewMonitor, GoMap.keys]
  have hnd := nodup_keys_foldl_storeResult rs _ hnd0
  have hcap := foldl_storeResult_new config alerter metrics rs T
  rw [GetResults_get _ T hnd, GetLatestResults_get _ T hnd]
  refine ⟨?_, ?_⟩
  · intro h hh
    rw [hh] at hcap
    have hlen : h.length ≠ 0 := by
      have h1 := hcap.1
      by_cases hc : callsFor T rs = 0
      · simp [hc] at h1
      · simp only [Option.map_some', if_neg hc, Option.some.injEq] at h1
        omega
    have hne : h ≠ [] := fun hnil => hlen (by rw [hnil]; rfl)
    refine ⟨h.getLast hne, ?_, ?_⟩
    · simp [hh, List.getLast?_eq_getLast _ hne]
    · exact List.getLast?_eq_getLast _ hne
  · intro hc
    have h1 := hcap.1
    rw [if_pos hc] at h1
    have hnone : (rs.foldl storeResult (NewMonitor config alerter metrics)).results.get T
        = none := by
      cases hg : (rs.foldl storeResult (NewMonitor config alerter metrics)).results.get T with
      | none => rfl
      | some v => rw [hg] at h1; simp at h1
    simp [hnone]

theorem append_ne_empty (s t : String) (hs : 0 < s.length) : s ++ t ≠ "" := by
  intro h
  have hl := congrArg String.length h
  rw [String.length_append] at hl
  have h0 : ("" : String).length = 0 := rfl
  omega

theorem mismatch_text_ne_empty (a b : String) :
    "Unexpected status code: " ++ a ++ " (expected: " ++ b ++ ")" ≠ "" := by
  have h : "Unexpected status code: " ++ a ++ " (expected: " ++ b ++ ")"
      = "Unexpected status code: " ++ (a ++ " (expected: " ++ b ++ ")") := by
    simp [String.append_assoc]
  rw [h]
  exact append_ne_empty _ _ (by decide)

/-- C5: when a response with status code `s` is received, the outcome of
`checkWebsite` has `StatusCode = s`, `Success` exactly when `s` is the target's
expected status, and an empty `Error` exactly when `Success` holds. -/
theorem checkWebsite_response_classification (website : Website) (start s elapsed : Int) :
    (checkWebsite website { start := start, event := ProbeEvent.response s elapsed }).StatusCode = s
    ∧ (checkWebsite website { start := start, event := ProbeEvent.response s elapsed }).Success
        = decide (s = website.ExpectedStatus)
    ∧ ((checkWebsite website { start := start, event := ProbeEvent.response s elapsed }).Error = ""
        ↔ (checkWebsite website { start := start, event := ProbeEvent.response s elapsed }).Success
            = true) := by
  by_cases hs : s = website.ExpectedStatus
  · simp [checkWebsite, hs]
  · have hne := mismatch_text_ne_empty (fmtInt s) (fmtInt website.ExpectedStatus)
    simp [checkWebsite, hs, hne]

/-- C6, as stated, fails: for the target expecting 200 and a 503 response the
`Error` text is not "unexpected status code: got 503, expected 200". -/
theorem mismatch_text_counterexample :
    (checkWebsite siteSvc { start := 0, event := ProbeEvent.response 503 1 }).Error
      ≠ "unexpected status code: got 503, expected 200" := by
  decide

/-- C6, amended: for a received status code `X` different from the expected
status `Y`, the `Error` field is "Unexpected status code: X (expected: Y)" with
`X` and `Y` in decimal. -/
theorem mismatch_text (website : Website) (start X elapsed : Int)
    (hne : X ≠ website.ExpectedStatus) :
    (checkWebsite website { start := start, event := ProbeEvent.response X elapsed }).Error
      = "Unexpected status code: " ++ fmtInt X ++ " (expected: "
          ++ fmtInt website.ExpectedStatus ++ ")" := by
  simp [checkWebsite, hne]

/-- The mismatch text for expected 200, received 503. -/
theorem mismatch_text_witness :
    (503 : Int) ≠ siteSvc.ExpectedStatus
    ∧ (checkWebsite siteSvc { start := 0, event := ProbeEvent.response 503 1 }).Error
        = "Unexpected status code: 503 (expected: 200)" :=
  ⟨by decide, mismatch_text siteSvc 0 503 1 (by decide)⟩

/-- C7: when building the request fails or the HTTP call returns a transport
error, `checkWebsite` returns an outcome with `Success = false`,
`StatusCode = 0` and a non-empty `Error`, for the probed target and with the
time of the probe's start. -/
theorem checkWebsite_no_response (website : Website) (start elapsed : Int) (err : String) :
    ((checkWebsite website { start := start, event := ProbeEvent.requestError err }).Success = false
      ∧ (checkWebsite website { start := start, event := ProbeEvent.requestError err }).StatusCode = 0
      ∧ (checkWebsite website { start := start, event := ProbeEvent.requestError err }).Error ≠ ""
      ∧ (checkWebsite website { start := start, event := ProbeEvent.requestError err }).Website
          = website
      ∧ (checkWebsite website { start := start, event := ProbeEvent.requestError err }).Timestamp
          = start)
    ∧ ((checkWebsite website
          { start := start, event := ProbeEvent.transportError err elapsed }).Success = false
      ∧ (checkWebsite website
          { start := start, event := ProbeEvent.transportError err elapsed }).StatusCode = 0
      ∧ (checkWebsite website
          { start := start, event := ProbeEvent.transportError err elapsed }).Error ≠ ""
      ∧ (checkWebsite website
          { start := start, event := ProbeEvent.transportError err elapsed }).Website = website
      ∧ (checkWebsite website
          { start := start, event := ProbeEvent.transportError err elapsed }).Timestamp = start) := by
  have h1 : "Failed to create request: " ++ err ≠ "" := append_ne_empty _ _ (by decide)
  have h2 : "Request failed: " ++ err ≠ "" := append_ne_empty _ _ (by decide)
  simp [checkWebsite, h1, h2]

theorem validateWebsites_error_iff (i : Nat) (ws : List Website) :
    (validateWebsites i ws).2 ≠ none ↔ ∃ w ∈ ws, w.Name = "" ∨ w.URL = "" := by
  induction ws generalizing i with
  | nil => simp [validateWebsites]
  | cons w rest ih =>
    by_cases hn : w.Name = ""
    · simp [validateWebsites, hn]
    · by_cases hu : w.URL = ""
      · simp [validateWebsites, hn, hu]
      · have := ih (i + 1)
        simp only [validateWebsites, if_neg hn, if_neg hu, List.mem_cons, exists_eq_or_imp,
          hn, hu, or_self, false_or]
        exact this

theorem validateWebsites_ok (i : Nat) (ws : List Website)
    (hok : (validateWebsites i ws).2 = none) :
    (validateWebsites i ws).1 = ws.map withDefaults := by
  induction ws generalizing i with
  | nil => simp [validateWebsites]
  | cons w rest ih =>
    by_cases hn : w.Name = ""
    · simp [validateWebsites, hn] at hok
    · by_cases hu : w.URL = ""
      · simp [validateWebsites, hn, hu] at hok
      · simp only [validateWebsites, if_neg hn, if_neg hu] at hok ⊢
        rw [ih (i + 1) hok]
        simp [withDefaults]

theorem withDefaults_idem (w : Website) : withDefaults (withDefaults w) = withDefaults w := by
  unfold withDefaults
  by_cases hm : w.Method = "" <;> by_cases he : w.ExpectedStatus = 0 <;> simp [hm, he]

theorem withDefaults_name (w : Website) : (withDefaults w).Name = w.Name := by
  unfold withDefaults
  by_cases hm : w.Method = "" <;> by_cases he : w.ExpectedStatus = 0 <;> simp [hm, he]

theorem withDefaults_url (w : Website) : (withDefaults w).URL = w.URL := by
  unfold withDefaults
  by_cases hm : w.Method = "" <;> by_cases he : w.ExpectedStatus = 0 <;> simp [hm, he]

theorem validateConfig_error_cases (config : Config) :
    (validateConfig config).2 ≠ none ↔
      (config.Server.Port < 1 ∨ config.Server.Port > 65535
        ∨ config.Monitoring.Interval ≤ 0 ∨ config.Monitoring.Timeout ≤ 0
        ∨ config.Websites = []
        ∨ ∃ w ∈ config.Websites, w.Name = "" ∨ w.URL = "") := by
  unfold validateConfig
  by_cases hp : config.Server.Port ≤ 0 ∨ config.Server.Port > 65535
  · rw [if_pos hp]
    have hp2 : config.Server.Port < 1 ∨ config.Server.Port > 65535 := by omega
    simp only [ne_eq, reduceCtorEq, not_false_eq_true, true_iff]
    rcases hp2 with h | h
    · exact Or.inl h
    · exact Or.inr (Or.inl h)
  · rw [if_neg hp]
    have hp1 : ¬ config.Server.Port < 1 := by omega
    have hp2 : ¬ config.Server.Port > 65535 := by omega
    by_cases hi : config.Monitoring.Interval ≤ 0
    · simp [hi]
    · rw [if_neg hi]
      by_cases ht : config.Monitoring.Timeout ≤ 0
      · simp [ht]
      · rw [if_neg ht]
        by_cases hw : config.Websites.length = 0
        · have hnil : config.Websites = [] := List.length_eq_zero.mp hw
          simp [hw, hnil]
        · have hnil : ¬ config.Websites = [] := fun h => hw (by rw [h]; rfl)
          rw [if_neg hw]
          simp only [hp1, hp2, hi, ht, hnil, false_or]
          exact validateWebsites_error_iff 0 config.Websites

/-- C9: `validateConfig` returns an error exactly when the server port is
outside 1..65535, or the monitoring interval or timeout is not positive, or the
website list is empty, or some website has an empty name or an empty URL; in
particular it rejects every configuration with no website. -/
theorem validateConfig_error_iff (config : Config) :
    ((validateConfig config).2 ≠ none ↔
      (config.Server.Port < 1 ∨ config.Server.Port > 65535
        ∨ config.Monitoring.Interval ≤ 0 ∨ config.Monitoring.Timeout ≤ 0
        ∨ config.Websites = []
        ∨ ∃ w ∈ config.Websites, w.Name = "" ∨ w.URL = ""))
    ∧ (config.Websites = [] → (validateConfig config).2 ≠ none) := by
  refine ⟨validateConfig_error_cases config, ?_⟩
  intro hnil
  exact (validateConfig_error_cases config).mpr
    (Or.inr (Or.inr (Or.inr (Or.inr (Or.inl hnil)))))

theorem validateConfig_ok (config : Config) (hok : (validateConfig config).2 = none) :
    (validateConfig config).1 = { config with Websites := config.Websites.map withDefaults } := by
  unfold validateConfig at hok ⊢
  by_cases hp : config.Server.Port ≤ 0 ∨ config.Server.Port > 65535
  · rw [if_pos hp] at hok; cases hok
  · rw [if_neg hp] at hok ⊢
    by_cases hi : config.Monitoring.Interval ≤ 0
    · rw [if_pos hi] at hok; cases hok
    · rw [if_neg hi] at hok ⊢
      by_cases ht : config.Monitoring.Timeout ≤ 0
      · rw [if_pos ht] at hok; cases hok
      · rw [if_neg ht] at hok ⊢
        by_cases hw : config.Websites.length = 0
        · rw [if_pos hw] at hok; cases hok
        · rw [if_neg hw] at hok ⊢
          simp only at hok ⊢
          rw [validateWebsites_ok 0 config.Websites hok]

/-- C10: when `validateConfig` returns no error, the website list keeps its
length and order; every website keeps its name and URL and ends with a
non-empty `Method` and a non-zero `ExpectedStatus`, where an empty `Method`
became "GET", a zero `ExpectedStatus` became 200 and set values are kept; the
server, monitoring, alerts and metrics settings are unchanged; and a second
`validateConfig` returns no error and changes nothing. -/
theorem validateConfig_defaults (config : Config) (hok : (validateConfig config).2 = none) :
    List.Forall₂
        (fun w w2 => w2.Name = w.Name ∧ w2.URL = w.URL
          ∧ w2.Method ≠ "" ∧ w2.ExpectedStatus ≠ 0
          ∧ w2.Method = (if w.Method = "" then "GET" else w.Method)
          ∧ w2.ExpectedStatus = (if w.ExpectedStatus = 0 then 200 else w.ExpectedStatus))
        config.Websites (validateConfig config).1.Websites
    ∧ (validateConfig config).1.Websites.length = config.Websites.length
    ∧ (validateConfig config).1.Server = config.Server
    ∧ (validateConfig config).1.Monitoring = config.Monitoring
    ∧ (validateConfig config).1.Alerts = config.Alerts
    ∧ (validateConfig config).1.Metrics = config.Metrics
    ∧ validateConfig (validateConfig config).1 = ((validateConfig config).1, none) := by
  have h1 := validateConfig_ok config hok
  have hcases := validateConfig_error_cases config
  have hno : ¬ (config.Server.Port < 1 ∨ config.Server.Port > 65535
        ∨ config.Monitoring.Interval ≤ 0 ∨ config.Monitoring.Timeout ≤ 0
        ∨ config.Websites = []
        ∨ ∃ w ∈ config.Websites, w.Name = "" ∨ w.URL = "") := fun h => hcases.mpr h hok
  have hok2 : (validateConfig (validateConfig config).1).2 = none := by
    by_contra hne
    have h2 := (validateConfig_error_cases (validateConfig config).1).mp hne
    rw [h1] at h2
    apply hno
    rcases h2 with h | h | h | h | h | h
    · exact Or.inl h
    · exact Or.inr (Or.inl h)
    · exact Or.inr (Or.inr (Or.inl h))
    · exact Or.inr (Or.inr (Or.inr (Or.inl h)))
    · exact Or.inr (Or.inr (Or.inr (Or.inr (Or.inl (List.map_eq_nil_iff.mp h)))))
    · obtain ⟨w, hw, hw2⟩ := h
      obtain ⟨w0, hw0, rfl⟩ := List.mem_map.mp hw
      rw [withDefaults_name, withDefaults_url] at hw2
      exact Or.inr (Or.inr (Or.inr (Or.inr (Or.inr ⟨w0, hw0, hw2⟩))))
  have h3 := validateConfig_ok _ hok2
  refine ⟨?_, ?_, ?_, ?_, ?_, ?_, ?_⟩
  · rw [h1]
    simp only
    clear h1 h3 hok2 hno hcases hok
    induction config.Websites with
    | nil => exact List.Forall₂.nil
    | cons w rest ih =>
      refine List.Forall₂.cons ?_ ih
      unfold withDefaults
      by_cases hm : w.Method = "" <;> by_cases he : w.ExpectedStatus = 0 <;> simp [hm, he]
  · rw [h1]; simp
  · rw [h1]
  · rw [h1]
  · rw [h1]
  · rw [h1]
  · apply Prod.ext
    · rw [h3, h1]
      simp [withDefaults_idem]
    · exact hok2

/-- The defaults on a configuration whose first website sets neither method nor status. -/
theorem validateConfig_defaults_witness :
    (validateConfig defaultsConfig).2 = none
    ∧ (validateConfig defaultsConfig).1.Websites.length = defaultsConfig.Websites.length
    ∧ (validateConfig defaultsConfig).1.Websites
        = [{ Name := "b", URL := "http://b/", Method := "GET", ExpectedStatus := 200 }, siteA] :=
  ⟨by decide, (validateConfig_defaults defaultsConfig (by decide)).2.1, by decide⟩

theorem SendAlert_fields (a a2 : Alerter) (r : MonitorResult)
    (h : a.SendAlert r = some a2) : a2.calls = a.calls ++ [r] ∧ a2.config = a.config := by
  unfold Alerter.SendAlert at h
  cases hc : a.config with
  | none => simp only [hc] at h; cases h
  | some c =>
    simp only [hc, Option.some.injEq] at h
    subst h
    by_cases he : c.Alerts.Email.Enabled = true <;>
      by_cases hs : c.Alerts.Slack.Enabled = true <;> simp [he, hs, hc]

theorem SendAlert_total (a : Alerter) (r : MonitorResult) (c : Config)
    (hc : a.config = some c) : ∃ a2, a.SendAlert r = some a2 := by
  unfold Alerter.SendAlert
  rw [hc]
  exact ⟨_, rfl⟩

theorem handleAlerts_fields (m m2 : Monitor) (r : MonitorResult)
    (h : handleAlerts m r = some m2) :
    m2.results = m.results ∧ m2.config = m.config ∧ m2.metrics = m.metrics
    ∧ alertCalls m2 = alertCalls m ++ (if r.Success then [] else [r])
    ∧ canAlert m2 = canAlert m := by
  unfold handleAlerts at h
  by_cases hs : r.Success = true
  · simp only [hs, Bool.not_true, Bool.false_eq_true, if_false, Option.some.injEq] at h
    subst h
    simp [hs]
  · have hs2 : (!r.Success) = true := by simpa using hs
    rw [if_pos hs2] at h
    cases ha : m.alerter with
    | none => simp only [ha] at h; cases h
    | some a =>
      cases hsend : a.SendAlert r with
      | none => simp only [ha, hsend] at h; cases h
      | some a2 =>
        simp only [ha, hsend, Option.some.injEq] at h
        subst h
        obtain ⟨hcalls, hcfg⟩ := SendAlert_fields a a2 r hsend
        simp [alertCalls, canAlert, ha, hs, hcalls, hcfg]

theorem handleAlerts_total (m : Monitor) (r : MonitorResult)
    (h : canAlert m = true ∨ r.Success = true) : ∃ m2, handleAlerts m r = some m2 := by
  unfold handleAlerts
  by_cases hs : r.Success = true
  · exact ⟨m, by simp [hs]⟩
  · have hs2 : (!r.Success) = true := by simpa using hs
    rw [if_pos hs2]
    have hcan : canAlert m = true := by
      rcases h with h | h
      · exact h
      · exact absurd h hs
    unfold canAlert at hcan
    cases ha : m.alerter with
    | none => simp [ha] at hcan
    | some a =>
      cases hc : a.config with
      | none => simp [ha, hc] at hcan
      | some c =>
        obtain ⟨a2, ha2⟩ := SendAlert_total a r c hc
        simp only [ha2]
        exact ⟨_, rfl⟩

theorem updateMetrics_fields (m : Monitor) (r : MonitorResult) :
    (updateMetrics m r).results = m.results ∧ (updateMetrics m r).config = m.config
    ∧ (updateMetrics m r).alerter = m.alerter
    ∧ metricsCalls (updateMetrics m r)
        = metricsCalls m ++ (if m.metrics.isSome then [r] else [])
    ∧ (updateMetrics m r).metrics.isSome = m.metrics.isSome := by
  unfold updateMetrics metricsCalls
  cases hm : m.metrics with
  | none => simp [hm]
  | some mt =>
    have hcalls : (mt.UpdateMetrics r).calls = mt.calls ++ [r] := by
      unfold Metrics.UpdateMetrics
      by_cases hs : r.Success = true <;> simp [hs]
    simp [hcalls]

theorem storeResult_fields (m : Monitor) (r : MonitorResult) :
    (storeResult m r).config = m.config ∧ (storeResult m r).alerter = m.alerter
    ∧ (storeResult m r).metrics = m.metrics := by
  simp [storeResult]

theorem checkOne_fields (m m2 : Monitor) (site : Website) (env : Probe)
    (h : checkOne m site env = some m2) :
    m2.results = (storeResult m (checkWebsite site env)).results
    ∧ m2.config = m.config
    ∧ alertCalls m2 = alertCalls m
        ++ (if (checkWebsite site env).Success then [] else [checkWebsite site env])
    ∧ metricsCalls m2
        = metricsCalls m ++ (if m.metrics.isSome then [checkWebsite site env] else [])
    ∧ m2.metrics.isSome = m.metrics.isSome
    ∧ canAlert m2 = canAlert m := by
  unfold checkOne at h
  cases hh : handleAlerts (storeResult m (checkWebsite site env)) (checkWebsite site env) with
  | none => simp only [hh] at h; cases h
  | some m1 =>
    simp only [hh, Option.some.injEq] at h
    subst h
    obtain ⟨f1, f2, f3, f4, f5⟩ := handleAlerts_fields _ _ _ hh
    obtain ⟨u1, u2, u3, u4, u5⟩ := updateMetrics_fields m1 (checkWebsite site env)
    obtain ⟨s1, s2, s3⟩ := storeResult_fields m (checkWebsite site env)
    have hmc : metricsCalls m1 = metricsCalls m := by
      simp [metricsCalls, f3, s3]
    have hac : alertCalls (storeResult m (checkWebsite site env)) = alertCalls m := by
      simp [alertCalls, s2]
    have hca : canAlert (storeResult m (checkWebsite site env)) = canAlert m := by
      simp [canAlert, s2]
    refine ⟨?_, ?_, ?_, ?_, ?_, ?_⟩
    · rw [u1, f1]
    · rw [u2, f2, s1]
    · have : alertCalls (updateMetrics m1 (checkWebsite site env)) = alertCalls m1 := by
        simp [alertCalls, u3]
      rw [this, f4, hac]
    · rw [u4, hmc, f3, s3]
    · rw [u5, f3, s3]
    · have : canAlert (updateMetrics m1 (checkWebsite site env)) = canAlert m1 := by
        simp [canAlert, u3]
      rw [this, f5, hca]

theorem checkOne_total (m : Monitor) (site : Website) (env : Probe)
    (h : canAlert m = true ∨ (checkWebsite site env).Success = true) :
    ∃ m2, checkOne m site env = some m2 := by
  have hca : canAlert (storeResult m (checkWebsite site env)) = canAlert m := by
    simp [canAlert, (storeResult_fields m (checkWebsite site env)).2.1]
  obtain ⟨m1, hm1⟩ := handleAlerts_total (storeResult m (checkWebsite site env))
    (checkWebsite site env) (by rw [hca]; exact h)
  unfold checkOne
  simp only [hm1]
  exact ⟨_, rfl⟩

theorem storeResult_results_congr (m m2 : Monitor) (r : MonitorResult)
    (h : m.results = m2.results) : (storeResult m r).results = (storeResult m2 r).results := by
  simp [storeResult, h]

theorem foldl_storeResult_results_congr (rs : List MonitorResult) (m m2 : Monitor)
    (h : m.results = m2.results) :
    (rs.foldl storeResult m).results = (rs.foldl storeResult m2).results := by
  induction rs generalizing m m2 with
  | nil => exact h
  | cons r rs ih =>
    simp only [List.foldl_cons]
    exact ih _ _ (storeResult_results_congr m m2 r h)

theorem checkAllWebsites_effects (completed : List (Website × Probe)) (m m2 : Monitor)
    (h : checkAllWebsites m completed = some m2) :
    m2.results = ((outcomes completed).foldl storeResult m).results
    ∧ m2.config = m.config
    ∧ alertCalls m2 = alertCalls m ++ (outcomes completed).filter (fun r => !r.Success)
    ∧ metricsCalls m2
        = metricsCalls m ++ (if m.metrics.isSome then outcomes completed else [])
    ∧ m2.metrics.isSome = m.metrics.isSome
    ∧ canAlert m2 = canAlert m := by
  induction completed generalizing m with
  | nil =>
    simp only [checkAllWebsites, Option.some.injEq] at h
    subst h
    simp [outcomes]
  | cons p t ih =>
    cases hone : checkOne m p.1 p.2 with
    | none => simp only [checkAllWebsites, hone] at h; cases h
    | some m1 =>
      simp only [checkAllWebsites, hone] at h
      obtain ⟨h1, h2, h3, h4, h5, h6⟩ := ih m1 h
      obtain ⟨c1, c2, c3, c4, c5, c6⟩ := checkOne_fields m m1 p.1 p.2 hone
      have houts : outcomes (p :: t) = checkWebsite p.1 p.2 :: outcomes t := rfl
      rw [houts]
      refine ⟨?_, ?_, ?_, ?_, ?_, ?_⟩
      · rw [h1, List.foldl_cons]
        exact foldl_storeResult_results_congr _ _ _ c1
      · rw [h2, c2]
      · rw [h3, c3]
        by_cases hs : (checkWebsite p.1 p.2).Success = true <;> simp [hs, List.filter_cons]
      · rw [h4, c4, c5]
        cases hm : m.metrics.isSome <;> simp
      · rw [h5, c5]
      · rw [h6, c6]

theorem checkAllWebsites_total (completed : List (Website × Probe)) (m : Monitor)
    (h : canAlert m = true ∨ ∀ r ∈ outcomes completed, r.Success = true) :
    ∃ m2, checkAllWebsites m completed = some m2 := by
  induction completed generalizing m with
  | nil => exact ⟨m, rfl⟩
  | cons p t ih =>
    have houts : outcomes (p :: t) = checkWebsite p.1 p.2 :: outcomes t := rfl
    rw [houts] at h
    have hone : canAlert m = true ∨ (checkWebsite p.1 p.2).Success = true := by
      rcases h with h | h
      · exact Or.inl h
      · exact Or.inr (h _ (List.mem_cons_self _ _))
    obtain ⟨m1, hm1⟩ := checkOne_total m p.1 p.2 hone
    have hcan := (checkOne_fields m m1 p.1 p.2 hm1).2.2.2.2.2
    have hrest : canAlert m1 = true ∨ ∀ r ∈ outcomes t, r.Success = true := by
      rcases h with h | h
      · exact Or.inl (by rw [hcan]; exact h)
      · exact Or.inr (fun r hr => h r (List.mem_cons_of_mem _ hr))
    obtain ⟨m2, hm2⟩ := ih m1 hrest
    exact ⟨m2, by simp only [checkAllWebsites, hm1]; exact hm2⟩

theorem checkWebsite_website (site : Website) (env : Probe) :
    (checkWebsite site env).Website = site := by
  unfold checkWebsite
  cases env.event with
  | requestError err => rfl
  | transportError err elapsed => rfl
  | response s elapsed =>
    by_cases hs : s = site.ExpectedStatus <;> simp [hs]

theorem callsFor_outcomes (m : Monitor) (completed : List (Website × Probe)) (T : String)
    (hr : IsRound m completed) : callsFor T (outcomes completed) = sitesNamed m.config T := by
  have h1 : callsFor T (outcomes completed)
      = (completed.map Prod.fst).countP (fun w => decide (w.Name = T)) := by
    unfold callsFor outcomes
    rw [List.countP_map, List.countP_map]
    congr 1
    funext p
    simp [checkWebsite_website]
  rw [h1]
  exact List.Perm.countP_eq _ hr

theorem history_congr (m m2 : Monitor) (T : String) (h : m.results = m2.results) :
    history m T = history m2 T := by
  simp [history, h]

theorem runRounds_history_length (rounds : List (List (Website × Probe))) (m m2 : Monitor)
    (T : String) (hr : ∀ rd ∈ rounds, IsRound m rd) (hle : (history m T).length ≤ 100)
    (h : runRounds m rounds = some m2) :
    (history m2 T).length
      = min ((history m T).length + rounds.length * sitesNamed m.config T) 100 := by
  induction rounds generalizing m with
  | nil =>
    simp only [runRounds, Option.some.injEq] at h
    subst h
    simp
    omega
  | cons rd t ih =>
    cases hone : checkAllWebsites m rd with
    | none => simp only [runRounds, hone] at h; cases h
    | some m1 =>
      simp only [runRounds, hone] at h
      obtain ⟨e1, e2, -, -, -, -⟩ := checkAllWebsites_effects rd m m1 hone
      have hrd : IsRound m rd := hr rd (List.mem_cons_self _ _)
      have hlen1 : (history m1 T).length
          = min ((history m T).length + sitesNamed m.config T) 100 := by
        rw [history_congr _ _ T e1, (foldl_storeResult_get _ m T hle).1,
          callsFor_outcomes m rd T hrd]
      have hr2 : ∀ rd2 ∈ t, IsRound m1 rd2 := by
        intro rd2 hmem
        have := hr rd2 (List.mem_cons_of_mem _ hmem)
        unfold IsRound at this ⊢
        rw [e2]
        exact this
      rw [ih m1 hr2 (by rw [hlen1]; omega) h, hlen1, e2]
      simp only [List.length_cons, Nat.succ_mul]
      omega

theorem runRounds_total (rounds : List (List (Website × Probe))) (m : Monitor)
    (h : canAlert m = true ∨ ∀ rd ∈ rounds, ∀ r ∈ outcomes rd, r.Success = true) :
    ∃ m2, runRounds m rounds = some m2 := by
  induction rounds generalizing m with
  | nil => exact ⟨m, rfl⟩
  | cons rd t ih =>
    have hone : canAlert m = true ∨ ∀ r ∈ outcomes rd, r.Success = true := by
      rcases h with h | h
      · exact Or.inl h
      · exact Or.inr (h rd (List.mem_cons_self _ _))
    obtain ⟨m1, hm1⟩ := checkAllWebsites_total rd m hone
    have hcan := (checkAllWebsites_effects rd m m1 hm1).2.2.2.2.2
    have hrest : canAlert m1 = true ∨ ∀ rd2 ∈ t, ∀ r ∈ outcomes rd2, r.Success = true := by
      rcases h with h | h
      · exact Or.inl (by rw [hcan]; exact h)
      · exact Or.inr (fun rd2 hmem => h rd2 (List.mem_cons_of_mem _ hmem))
    obtain ⟨m2, hm2⟩ := ih m1 hrest
    exact ⟨m2, by simp only [runRounds, hm1]; exact hm2⟩

theorem sitesNamed_of_nodup (config : Config) (T : Website) (hT : T ∈ config.Websites)
    (hnd : (config.Websites.map (fun w => w.Name)).Nodup) :
    sitesNamed config T.Name = 1 := by
  have hmem : T.Name ∈ config.Websites.map (fun w => w.Name) :=
    List.mem_map.mpr ⟨T, hT, rfl⟩
  have hc := List.count_eq_one_of_mem hnd hmem
  rw [List.count, List.countP_map] at hc
  unfold sitesNamed
  rw [← hc]
  congr 1

/-- C4, as stated, fails: `validateConfig` accepts a configuration with two
websites named "a", and after one completed round the history under "a" has
two entries, not `min 1 100`. -/
theorem rounds_history_counterexample :
    (validateConfig dupConfig).2 = none
    ∧ siteA ∈ (validateConfig dupConfig).1.Websites
    ∧ IsRound dupMonitor dupRound
    ∧ (runRounds dupMonitor [dupRound]).map (fun m => (history m siteA.Name).length) = some 2
    ∧ (runRounds dupMonitor [dupRound]).map (fun m => (history m siteA.Name).length)
        ≠ some (min 1 100) := by
  decide

/-- C4, amended: for a configuration accepted by `validateConfig` and a
configured target `T`, after `N` completed rounds on a fresh monitor the
history under `T`'s name has length `min (N * k) 100`, where `k` is the number
of configured websites named like `T`; when the configured names are pairwise
distinct this is `min N 100`.  The `N` rounds do complete when the alerter
pointer is not nil and holds a configuration, or when no outcome fails. -/
theorem rounds_history_length (config : Config) (hok : (validateConfig config).2 = none)
    (alerter : Option Alerter) (metrics : Option Metrics)
    (rounds : List (List (Website × Probe)))
    (hr : ∀ rd ∈ rounds, IsRound (NewMonitor (validateConfig config).1 alerter metrics) rd)
    (T : Website) (hT : T ∈ (validateConfig config).1.Websites) :
    (∀ m2, runRounds (NewMonitor (validateConfig config).1 alerter metrics) rounds = some m2 →
      (history m2 T.Name).length
          = min (rounds.length * sitesNamed (validateConfig config).1 T.Name) 100
      ∧ ((config.Websites.map (fun w => w.Name)).Nodup →
          (history m2 T.Name).length = min rounds.length 100))
    ∧ (((∃ a c, alerter = some a ∧ a.config = some c)
          ∨ (∀ rd ∈ rounds, ∀ r ∈ outcomes rd, r.Success = true)) →
        ∃ m2, runRounds (NewMonitor (validateConfig config).1 alerter metrics) rounds
          = some m2) := by
  refine ⟨?_, ?_⟩
  · intro m2 hrun
    have h0 : (history (NewMonitor (validateConfig config).1 alerter metrics) T.Name).length
        = 0 := by
      simp [history, NewMonitor, GoMap.get]
    have hmain := runRounds_history_length rounds
      (NewMonitor (validateConfig config).1 alerter metrics) m2 T.Name hr
      (by rw [h0]; omega) hrun
    rw [h0, Nat.zero_add] at hmain
    have hcfg : (NewMonitor (validateConfig config).1 alerter metrics).config
        = (validateConfig config).1 := rfl
    rw [hcfg] at hmain
    refine ⟨hmain, ?_⟩
    intro hnd
    have hnames : (validateConfig config).1.Websites.map (fun w => w.Name)
        = config.Websites.map (fun w => w.Name) := by
      rw [validateConfig_ok config hok]
      simp [List.map_map, Function.comp, withDefaults_name]
    have hk := sitesNamed_of_nodup (validateConfig config).1 T hT (by rw [hnames]; exact hnd)
    rw [hmain, hk, Nat.mul_one]
  · intro hready
    apply runRounds_total
    rcases hready with ⟨a, c, ha, hc⟩ | hall
    · left
      simp [canAlert, NewMonitor, ha, hc]
    · exact Or.inr hall

/-- Two rounds over two distinctly named targets complete and leave two outcomes under "a". -/
theorem rounds_history_length_witness :
    (validateConfig twoConfig).2 = none
    ∧ (∀ rd ∈ twoRounds, IsRound (NewMonitor (validateConfig twoConfig).1
        (some (NewAlerter (some twoConfig))) (some NewMetrics)) rd)
    ∧ siteA ∈ (validateConfig twoConfig).1.Websites
    ∧ (twoConfig.Websites.map (fun w => w.Name)).Nodup
    ∧ ∃ m2, runRounds (NewMonitor (validateConfig twoConfig).1
          (some (NewAlerter (some twoConfig))) (some NewMetrics)) twoRounds = some m2
        ∧ (history m2 siteA.Name).length = min 2 100 :=
  ⟨by decide, by decide, by decide, by decide,
    Exists.elim
      ((rounds_history_length twoConfig (by decide) (some (NewAlerter (some twoConfig)))
        (some NewMetrics) twoRounds (by decide) siteA (by decide)).2
        (Or.inl ⟨NewAlerter (some twoConfig), twoConfig, rfl, rfl⟩))
      (fun m2 hrun => ⟨m2, hrun,
        ((rounds_history_length twoConfig (by decide) (some (NewAlerter (some twoConfig)))
          (some NewMetrics) twoRounds (by decide) siteA (by decide)).1 m2 hrun).2
          (by decide)⟩)⟩

/-- C8, as stated, fails: on a monitor whose metrics pointer is nil a round
over three targets makes no `UpdateMetrics` call, not three; and on a monitor
whose alerter pointer is nil, or whose alerter holds no configuration, the
round with a failing outcome panics instead of dispatching. -/
theorem dispatch_counterexample :
    IsRound nilMetricsMonitor threeRound
    ∧ (outcomes threeRound).length = 3
    ∧ (checkAllWebsites nilMetricsMonitor threeRound).map (fun m => m.metrics) = some none
    ∧ (checkAllWebsites nilMetricsMonitor threeRound).map (fun m => (metricsCalls m).length)
        ≠ some ((metricsCalls nilMetricsMonitor).length + 3)
    ∧ IsRound nilAlerterMonitor threeRound
    ∧ checkAllWebsites nilAlerterMonitor threeRound = none
    ∧ IsRound bareAlerterMonitor threeRound
    ∧ checkAllWebsites bareAlerterMonitor threeRound = none := by
  decide

/-- C8, amended: on a monitor whose alerter pointer is not nil and holds a
configuration, a round over the `k` configured targets completes; every outcome
is stored once (the store is the one left by `storeResult` over the outcomes in
completion order), the new `SendAlert` calls are exactly the failed outcomes,
`f` of them, and, when the metrics pointer is not nil, the new `UpdateMetrics`
calls are exactly the `k` outcomes; with a nil metrics pointer no
`UpdateMetrics` call is made. -/
theorem round_dispatch (m : Monitor) (completed : List (Website × Probe))
    (hr : IsRound m completed) (a : Alerter) (c : Config)
    (ha : m.alerter = some a) (hc : a.config = some c) :
    ∃ m2, checkAllWebsites m completed = some m2
      ∧ (outcomes completed).length = m.config.Websites.length
      ∧ ((outcomes completed).map (fun r => r.Website)).Perm m.config.Websites
      ∧ m2.results = ((outcomes completed).foldl storeResult m).results
      ∧ alertCalls m2 = alertCalls m ++ (outcomes completed).filter (fun r => !r.Success)
      ∧ (alertCalls m2).length
          = (alertCalls m).length + (outcomes completed).countP (fun r => !r.Success)
      ∧ (m.metrics ≠ none →
          metricsCalls m2 = metricsCalls m ++ outcomes completed
          ∧ (metricsCalls m2).length = (metricsCalls m).length + m.config.Websites.length)
      ∧ (m.metrics = none → m2.metrics = none) := by
  have hcan : canAlert m = true := by simp [canAlert, ha, hc]
  obtain ⟨m2, hm2⟩ := checkAllWebsites_total completed m (Or.inl hcan)
  obtain ⟨e1, -, e3, e4, e5, -⟩ := checkAllWebsites_effects completed m m2 hm2
  have hsites : (outcomes completed).map (fun r => r.Website) = completed.map Prod.fst := by
    unfold outcomes
    rw [List.map_map]
    congr 1
    funext p
    simp [checkWebsite_website]
  have hlen : (outcomes completed).length = m.config.Websites.length := by
    have h1 : (outcomes completed).length = (completed.map Prod.fst).length := by
      simp [outcomes]
    rw [h1]
    exact List.Perm.length_eq hr
  refine ⟨m2, hm2, hlen, ?_, e1, e3, ?_, ?_, ?_⟩
  · rw [hsites]
    exact hr
  · rw [e3, List.length_append, List.countP_eq_length_filter]
  · intro hne
    have hsome : m.metrics.isSome = true := by
      cases hm : m.metrics with
      | none => exact absurd hm hne
      | some mt => rfl
    rw [hsome] at e4
    simp only [if_true] at e4
    refine ⟨e4, ?_⟩
    rw [e4, List.length_append, hlen]
  · intro hnone
    rw [hnone] at e5
    cases hm : m2.metrics with
    | none => rfl
    | some mt => rw [hm] at e5; simp at e5

/-- Three targets, one failing, alerter and metrics in place: the round completes
with three metrics calls and one alert. -/
theorem round_dispatch_witness :
    IsRound threeMonitor threeRound
    ∧ threeMonitor.alerter = some (NewAlerter (some threeConfig))
    ∧ (NewAlerter (some threeConfig)).config = some threeConfig
    ∧ threeMonitor.metrics ≠ none
    ∧ ∃ m2, checkAllWebsites threeMonitor threeRound = some m2
        ∧ (metricsCalls m2).length = 0 + 3
        ∧ (alertCalls m2).length = 0 + 1 :=
  ⟨by decide, rfl, rfl, by decide,
    Exists.elim
      (round_dispatch threeMonitor threeRound (by decide) (NewAlerter (some threeConfig))
        threeConfig rfl rfl)
      (fun m2 h => ⟨m2, h.1, (h.2.2.2.2.2.2.1 (by decide)).2, h.2.2.2.2.2.1⟩)⟩

end UpTimer
